/-
  Verification of the molt-atproto moderation/reputation engine.

  Shallow embedding of the AppView handlers:
  - `calculatePhi` / `getStanding`  (appview/src/api/handlers/getStanding.ts)
  - `handleCreateTestimony`         (appview/src/api/handlers/createTestimony.ts)
  - `handleCreateVote`              (vote write handler)
  - `getModActionStatus`            (appeal-flow example, state derivation loop)

  Numbers are idealised: JS floating point is modelled by `ℝ`, millisecond
  timestamps (JS `Date.getTime()`) by `ℤ`, counts by `ℕ`.  Database tables are
  modelled as lists of row structures, and each handler is a pure function from
  (parameters, table state) to (result, table state).
-/
import Mathlib

open Real

/-! ## Standing calculator (getStanding.ts) -/

/-- Embeds the `Methodology` interface of getStanding.ts: `version`,
`description`, and the optional `weights` record (modelled as an association
list of name/value pairs; an absent record is the empty list). -/
structure Methodology where
  version : String
  description : String
  weights : List (String × ℝ)

/-- Lookup of a named weight, `methodology.weights?.<k>` in the source. -/
def Methodology.weight (m : Methodology) (k : String) : Option ℝ :=
  (m.weights.find? (fun p => p.1 == k)).map (·.2)

/-- Embeds the constant `METHODOLOGY_V1` of getStanding.ts ("Methodology v1:
Simple weighted average"); the description string is abridged to its first
line, which no theorem below inspects. -/
def METHODOLOGY_V1 : Methodology :=
  { version := "molt-v1"
  , description := "Simple testimony-based standing calculation."
  , weights :=
      [ ("positive", 1.0)
      , ("negative", -1.0)
      , ("neutral", 0.0)
      , ("recencyHalfLifeDays", 30)
      , ("witnessStandingMultiplier", 0.5) ] }

/-- Embeds the `PhiScore` interface: `value` (0-1), `computedAt` (modelled as
the millisecond timestamp rather than its ISO rendering), `confidence`. -/
structure PhiScore where
  value : ℝ
  computedAt : ℤ
  confidence : ℝ

/-- One row of the `testimonies` query result in `getStanding` (the SELECT with
the LEFT JOIN on `profiles`); `created_at` is the millisecond timestamp. -/
structure QueryRow where
  uri : String
  witness_did : String
  witness_handle : Option String
  category : String
  content : String
  evidence : List String
  created_at : ℤ
deriving DecidableEq

/-- The `categoryValue` switch inside `calculatePhi`: positive ↦ 1,
negative ↦ -1, default ↦ 0. -/
def categoryValue (c : String) : ℝ :=
  if c = "positive" then 1 else if c = "negative" then -1 else 0

/-- The per-testimony recency weight in `calculatePhi`:
`Math.pow(0.5, ageMs / halfLifeMs)` with `ageMs = now - created_at`. -/
noncomputable def recencyWeight (now : ℤ) (halfLifeMs : ℝ) (created_at : ℤ) : ℝ :=
  (0.5 : ℝ) ^ (((now - created_at : ℤ) : ℝ) / halfLifeMs)

/-- Embeds `calculatePhi` of getStanding.ts: empty input returns the neutral
default (value 0.5, confidence 0); otherwise the recency-weighted category
average is renormalised from [-1,1] to [0,1] and clamped, and confidence is
`clamp(1 - 0.9^count, 0, 1)`. -/
noncomputable def calculatePhi (now : ℤ) (testimonies : List QueryRow)
    (methodology : Methodology) : PhiScore :=
  let halfLifeMs : ℝ := ((methodology.weight "recencyHalfLifeDays").getD 30) * 24 * 60 * 60 * 1000
  if testimonies = [] then
    { value := 0.5, computedAt := now, confidence := 0 }
  else
    let weightedSum : ℝ :=
      (testimonies.map (fun t => categoryValue t.category * recencyWeight now halfLifeMs t.created_at)).sum
    let totalWeight : ℝ :=
      (testimonies.map (fun t => recencyWeight now halfLifeMs t.created_at)).sum
    let rawScore : ℝ := if 0 < totalWeight then weightedSum / totalWeight else 0
    let normalizedScore : ℝ := (rawScore + 1) / 2
    let confidence : ℝ := 1 - (0.9 : ℝ) ^ testimonies.length
    { value := max 0 (min 1 normalizedScore)
    , computedAt := now
    , confidence := max 0 (min 1 confidence) }

/-! ## getStanding query surface (getStanding.ts) -/

/-- One stored row of the `testimonies` table, with the columns written by
`handleCreateTestimony` and read by `getStanding`. -/
structure TestimonyRow where
  uri : String
  cid : String
  witness_did : String
  subject_did : String
  category : String
  content : String
  context : String
  evidence : List String
  created_at : ℤ
deriving DecidableEq

/-- One row of the `profiles` table (only the columns the LEFT JOINs use). -/
structure Profile where
  did : String
  handle : String
deriving DecidableEq

/-- One stored row of the `mod_actions` table (only the columns `getStanding`
reads). -/
structure ModActionRow where
  uri : String
  moderator_did : String
  subject_did : String
  context : String
  action_type : String
  reason : String
  status : String
  created_at : ℤ
deriving DecidableEq

/-- Embeds the `TestimonyView` interface of getStanding.ts. -/
structure TestimonyView where
  uri : String
  witness : String
  witnessHandle : Option String
  category : String
  content : String
  evidence : Option (List String)
  createdAt : ℤ
deriving DecidableEq

/-- Embeds the `ModActionView` interface of getStanding.ts. -/
structure ModActionView where
  uri : String
  moderator : String
  moderatorHandle : Option String
  actionType : String
  reason : String
  status : String
  createdAt : ℤ
deriving DecidableEq

/-- Embeds the `GetStandingResponse` interface of getStanding.ts. -/
structure GetStandingResponse where
  did : String
  context : Option String
  phi : PhiScore
  methodology : Methodology
  testimonies : List TestimonyView
  modActions : Option (List ModActionView)

/-- The field names of the source `GetStandingResponse` interface
(getStanding.ts lines 47-56), in declaration order.  The response carries
exactly these keys: in particular there is no `tier`, no `cursor` and no
`moreAvailable` field. -/
def GetStandingResponse.fieldNames : List String :=
  ["did", "context", "phi", "methodology", "testimonies", "modActions"]

/-- Insertion step for `ORDER BY key DESC`. -/
def insertByKeyDesc (key : α → ℤ) (a : α) : List α → List α
  | [] => [a]
  | b :: t => if key b < key a then a :: b :: t else b :: insertByKeyDesc key a t

/-- Models the SQL `ORDER BY key DESC` as an insertion sort. -/
def sortByKeyDesc (key : α → ℤ) : List α → List α
  | [] => []
  | a :: t => insertByKeyDesc key a (sortByKeyDesc key t)

/-- The testimony SELECT in `getStanding`: rows of `testimonies` matching the
subject (and the context when given), LEFT JOIN on `profiles` for the witness
handle, ordered by `created_at` DESC, LIMIT 50. -/
def queryTestimonies (did : String) (context : Option String)
    (table : List TestimonyRow) (profiles : List Profile) : List QueryRow :=
  ((sortByKeyDesc (·.created_at)
      (table.filter (fun r =>
        r.subject_did == did &&
          match context with
          | none => true
          | some c => r.context == c))).take 50).map
    (fun r =>
      { uri := r.uri
      , witness_did := r.witness_did
      , witness_handle := (profiles.find? (fun p => p.did == r.witness_did)).map (·.handle)
      , category := r.category
      , content := r.content
      , evidence := r.evidence
      , created_at := r.created_at })

/-- The mod-action SELECT in `getStanding`: rows of `mod_actions` matching the
subject (and context when given) with status `active` or `pending`, LEFT JOIN
on `profiles`, ordered by `created_at` DESC, LIMIT 10; handles are resolved in
the view below. -/
def queryModActions (did : String) (context : Option String)
    (table : List ModActionRow) : List ModActionRow :=
  (sortByKeyDesc (·.created_at)
      (table.filter (fun r =>
        r.subject_did == did &&
          (match context with
           | none => true
           | some c => r.context == c) &&
          (r.status == "active" || r.status == "pending")))).take 10

/-- Embeds `getStanding` of getStanding.ts: runs the two queries, computes phi
under `METHODOLOGY_V1`, and assembles the response (evidence lists are dropped
when empty; `modActions` is omitted when the query is empty). -/
noncomputable def getStanding (now : ℤ) (did : String) (context : Option String)
    (testimonyTable : List TestimonyRow) (modActionTable : List ModActionRow)
    (profiles : List Profile) : GetStandingResponse :=
  let testimonies := queryTestimonies did context testimonyTable profiles
  let modActions := queryModActions did context modActionTable
  { did := did
  , context := context
  , phi := calculatePhi now testimonies METHODOLOGY_V1
  , methodology := METHODOLOGY_V1
  , testimonies := testimonies.map (fun t =>
      { uri := t.uri
      , witness := t.witness_did
      , witnessHandle := t.witness_handle
      , category := t.category
      , content := t.content
      , evidence := if t.evidence.length > 0 then some t.evidence else none
      , createdAt := t.created_at })
  , modActions :=
      if modActions.length > 0 then
        some (modActions.map (fun ma =>
          { uri := ma.uri
          , moderator := ma.moderator_did
          , moderatorHandle := (profiles.find? (fun p => p.did == ma.moderator_did)).map (·.handle)
          , actionType := ma.action_type
          , reason := ma.reason
          , status := ma.status
          , createdAt := ma.created_at }))
      else none }

/-! ## Testimony ingestion (createTestimony.ts) -/

/-- Embeds the `MoltTestimonyRecord` interface; the `$type` discriminator is
written `rtype`.  Required string fields can still arrive empty at runtime, so
the handler's falsy checks are modelled as emptiness tests. -/
structure MoltTestimonyRecord where
  rtype : String
  subject : String
  category : String
  content : String
  context : Option String
  evidence : Option (List String)
  createdAt : ℤ
deriving DecidableEq

/-- Embeds the `CreateTestimonyParams` interface (`did` is the witness). -/
structure CreateTestimonyParams where
  uri : String
  cid : String
  did : String
  record : MoltTestimonyRecord
deriving DecidableEq

/-- Embeds the `CreateTestimonyResult` interface. -/
structure CreateTestimonyResult where
  success : Bool
  uri : String
  error : Option String
deriving DecidableEq

/-- Embeds `handleCreateTestimony` of createTestimony.ts: validation in source
order ($type, required fields, category, self-testimony) and on success the
INSERT into `testimonies`; the database state is passed and returned
explicitly. -/
def handleCreateTestimony (params : CreateTestimonyParams)
    (table : List TestimonyRow) : CreateTestimonyResult × List TestimonyRow :=
  let record := params.record
  if record.rtype ≠ "app.molt.testimony" then
    ({ success := false, uri := params.uri
     , error := some ("Invalid record type: " ++ record.rtype) }, table)
  else if record.subject = "" ∨ record.category = "" ∨ record.content = "" then
    ({ success := false, uri := params.uri
     , error := some "Missing required fields: subject, category, content" }, table)
  else if record.category ∉ ["positive", "negative", "neutral"] then
    ({ success := false, uri := params.uri
     , error := some ("Invalid category: " ++ record.category) }, table)
  else if record.subject = params.did then
    ({ success := false, uri := params.uri
     , error := some "Cannot testify about yourself" }, table)
  else
    ({ success := true, uri := params.uri, error := none },
      table ++
        [{ uri := params.uri
         , cid := params.cid
         , witness_did := params.did
         , subject_did := record.subject
         , category := record.category
         , content := record.content
         , context := record.context.getD ""
         , evidence := record.evidence.getD []
         , created_at := record.createdAt }])

/-! ## Vote ingestion (the `handleCreateVote` write handler) -/

/-- Embeds the `MoltVoteRecord` interface (`$type` written `rtype`). -/
structure MoltVoteRecord where
  rtype : String
  subject : String
  direction : String
  createdAt : ℤ
deriving DecidableEq

/-- Embeds the `CreateVoteParams` interface (`did` is the voter). -/
structure CreateVoteParams where
  uri : String
  cid : String
  did : String
  record : MoltVoteRecord
deriving DecidableEq

/-- Embeds the `CreateVoteResult` interface. -/
structure CreateVoteResult where
  success : Bool
  uri : String
  error : Option String
deriving DecidableEq

/-- One stored row of the `votes` table. -/
structure VoteRow where
  uri : String
  cid : String
  voter_did : String
  subject : String
  direction : String
  created_at : ℤ
deriving DecidableEq

/-- One row of the `posts` table restricted to the columns the vote handler
touches: the post URI and its two vote counters. -/
structure PostRow where
  uri : String
  upvote_count : ℕ
  downvote_count : ℕ
deriving DecidableEq

/-- The vote-relevant database state: the `votes` table and the `posts`
table. -/
structure VoteDb where
  votes : List VoteRow
  posts : List PostRow
deriving DecidableEq

/-- The `ALTER TABLE posts UPDATE <col> = <col> + 1 WHERE uri = subject`
statement: bump the direction's counter on every post row with that URI. -/
def incrementCount (subject direction : String) (posts : List PostRow) : List PostRow :=
  posts.map (fun p =>
    if p.uri = subject then
      if direction = "up" then { p with upvote_count := p.upvote_count + 1 }
      else { p with downvote_count := p.downvote_count + 1 }
    else p)

/-- The `ALTER TABLE posts UPDATE <col> = <col> - 1 WHERE uri = subject AND
<col> > 0` statement for the old direction of a changed vote. -/
def decrementCount (subject direction : String) (posts : List PostRow) : List PostRow :=
  posts.map (fun p =>
    if p.uri = subject then
      if direction = "up" then
        if 0 < p.upvote_count then { p with upvote_count := p.upvote_count - 1 } else p
      else
        if 0 < p.downvote_count then { p with downvote_count := p.downvote_count - 1 } else p
    else p)

/-- Embeds `handleCreateVote`: validation in source order, then the
existing-vote lookup (`SELECT ... LIMIT 1`, modelled as `List.find?`); a
same-direction duplicate returns success unchanged, a different direction
first decrements the old counter and deletes the old vote row, and in both
remaining paths the new vote is inserted and its counter incremented. -/
def handleCreateVote (params : CreateVoteParams) (db : VoteDb) :
    CreateVoteResult × VoteDb :=
  let record := params.record
  if record.rtype ≠ "app.molt.vote" then
    ({ success := false, uri := params.uri
     , error := some ("Invalid record type: " ++ record.rtype) }, db)
  else if record.subject = "" ∨ record.direction = "" then
    ({ success := false, uri := params.uri
     , error := some "Missing required fields: subject and direction" }, db)
  else if record.direction ∉ ["up", "down"] then
    ({ success := false, uri := params.uri
     , error := some ("Invalid direction: " ++ record.direction) }, db)
  else
    let existing? := db.votes.find? (fun v =>
      v.voter_did == params.did && v.subject == record.subject)
    match existing? with
    | some existing =>
      if existing.direction = record.direction then
        ({ success := true, uri := params.uri, error := none }, db)
      else
        let posts1 := decrementCount record.subject existing.direction db.posts
        let votes1 := db.votes.filter (fun v => v.uri ≠ existing.uri)
        let newRow : VoteRow :=
          { uri := params.uri, cid := params.cid, voter_did := params.did
          , subject := record.subject, direction := record.direction
          , created_at := record.createdAt }
        ({ success := true, uri := params.uri, error := none },
         { votes := votes1 ++ [newRow]
         , posts := incrementCount record.subject record.direction posts1 })
    | none =>
      let newRow : VoteRow :=
        { uri := params.uri, cid := params.cid, voter_did := params.did
        , subject := record.subject, direction := record.direction
        , created_at := record.createdAt }
      ({ success := true, uri := params.uri, error := none },
       { votes := db.votes ++ [newRow]
       , posts := incrementCount record.subject record.direction db.posts })

/-- Applies a sequence of vote-creation calls in order, threading the database
state. -/
def applyVotes (ps : List CreateVoteParams) (db : VoteDb) : VoteDb :=
  ps.foldl (fun s p => (handleCreateVote p s).2) db

/-! ## Moderation-action state derivation (appeal-flow example, `getModActionStatus`) -/

/-- An appeal resolution as seen by the state-derivation loop: its outcome
string and its creation timestamp (`createdAt` of the `appealResolution`
record, in milliseconds). -/
structure ResolutionRec where
  uri : String
  outcome : String
  createdAt : ℤ
deriving DecidableEq

/-- An appeal as seen by the state-derivation loop: the appeal record plus the
resolution the indexer finds for it, if any.  The source's data fetching is an
explicit stub ("In practice, this would query an indexer"), so the fetched
appeals are taken as the argument here. -/
structure AppealRec where
  uri : String
  createdAt : ℤ
  resolution : Option ResolutionRec
deriving DecidableEq

/-- One iteration of the resolution switch in `getModActionStatus`: a resolved
appeal overwrites the running state according to its outcome (`upheld` maps
back to `active`; an unknown outcome falls through the switch and leaves the
state unchanged), an unresolved appeal leaves it unchanged. -/
def stepAppealState (state : String) (a : AppealRec) : String :=
  match a.resolution with
  | none => state
  | some r =>
    if r.outcome = "overturned" then "overturned"
    else if r.outcome = "modified" then "modified"
    else if r.outcome = "remanded" then "remanded"
    else if r.outcome = "upheld" then "active"
    else state

/-- Embeds the state logic of `getModActionStatus` (appeal-flow example):
`currentState` starts as `active`, becomes `appealed` when any appeal exists,
and is then overwritten by each resolved appeal in iteration order. -/
def getModActionStatus (appeals : List AppealRec) : String :=
  if appeals.isEmpty then "active" else appeals.foldl stepAppealState "appealed"

/-- The outcome of the last resolved appeal in iteration order, if any. -/
def lastResolvedOutcome (appeals : List AppealRec) : Option String :=
  appeals.foldl
    (fun acc a => match a.resolution with
      | some r => some r.outcome
      | none => acc)
    none

/-- The state the outcome switch of `getModActionStatus` assigns to a known
outcome. -/
def outcomeState (o : String) : String :=
  if o = "overturned" then "overturned"
  else if o = "modified" then "modified"
  else if o = "remanded" then "remanded"
  else "active"

/-- Modelled from the spec: the tie-break policy of §4.1 for multiple
concurrent appeals — the terminal resolution (outcome `upheld`, `overturned`
or `modified`) with the greatest `createdAt` across all appeal branches is the
binding one; returns its outcome.  The source only implements the derivation
loop of `getModActionStatus`, not this policy; this definition exists to state
the refutation of claim C6 against the code. -/
def specLatestTerminalOutcome (appeals : List AppealRec) : Option String :=
  ((appeals.filterMap (·.resolution)).filter
      (fun r => r.outcome ∈ ["upheld", "overturned", "modified"])).foldl
    (fun acc r =>
      match acc with
      | none => some r
      | some m => if m.createdAt < r.createdAt then some r else some m)
    none
    |>.map (·.outcome)

/-! ## Concrete inputs used by the scenario theorems and counterexamples -/

/-- Scenario B of the spec: two positive testimonies aged 5 days and one
negative testimony aged 40 days (ages in milliseconds: 5 d = 432000000 ms,
40 d = 3456000000 ms), as query rows relative to the evaluation time `now`. -/
def scenarioBRows (now : ℤ) : List QueryRow :=
  [ { uri := "at://did:plc:w1/app.molt.testimony/1", witness_did := "did:plc:w1"
    , witness_handle := none, category := "positive", content := "helped me debug"
    , evidence := [], created_at := now - 432000000 }
  , { uri := "at://did:plc:w2/app.molt.testimony/2", witness_did := "did:plc:w2"
    , witness_handle := none, category := "positive", content := "great moderator"
    , evidence := [], created_at := now - 432000000 }
  , { uri := "at://did:plc:w3/app.molt.testimony/3", witness_did := "did:plc:w3"
    , witness_handle := none, category := "negative", content := "spammed the feed"
    , evidence := [], created_at := now - 3456000000 } ]

/-- A single query row used by small witnesses. -/
def sampleQueryRow : QueryRow :=
  { uri := "at://did:plc:w1/app.molt.testimony/9", witness_did := "did:plc:w1"
  , witness_handle := none, category := "positive", content := "reliable"
  , evidence := [], created_at := 0 }

/-- Builds the i-th row of the truncation example: 51 testimonies about the
same subject with strictly decreasing creation times. -/
def truncRow (i : ℕ) : TestimonyRow :=
  { uri := "at://did:plc:w/app.molt.testimony/" ++ toString i
  , cid := "cid" ++ toString i
  , witness_did := "did:plc:w"
  , subject_did := "did:plc:subject"
  , category := "positive"
  , content := "testimony"
  , context := ""
  , evidence := []
  , created_at := (1000 : ℤ) - i }

/-- A `testimonies` table holding 51 rows about one subject. -/
def truncTable51 : List TestimonyRow := (List.range 51).map truncRow

/-- The same table restricted to the 50 most recent rows. -/
def truncTable50 : List TestimonyRow := (List.range 50).map truncRow

/-- Scenario A of the spec: a moderation action appealed at T0+1h whose appeal
is resolved `overturned` at T0+6h (timestamps in ms offsets from T0). -/
def scenarioAAppeal : AppealRec :=
  { uri := "at://did:plc:user123/app.molt.appeal/tid123"
  , createdAt := 3600000
  , resolution := some
      { uri := "at://did:plc:appeals/app.molt.appealResolution/r1"
      , outcome := "overturned"
      , createdAt := 21600000 } }

/-- First-filed appeal of the concurrent-appeal example: filed at t=0, its
resolution `overturned` is created at t=100 (the most recent terminal
resolution). -/
def appealFiledFirst : AppealRec :=
  { uri := "at://did:plc:u1/app.molt.appeal/a1"
  , createdAt := 0
  , resolution := some
      { uri := "at://did:plc:m/app.molt.appealResolution/r1"
      , outcome := "overturned"
      , createdAt := 100 } }

/-- Later-filed appeal of the concurrent-appeal example: filed at t=1, its
resolution `upheld` is created earlier, at t=50. -/
def appealFiledSecond : AppealRec :=
  { uri := "at://did:plc:u2/app.molt.appeal/a2"
  , createdAt := 1
  , resolution := some
      { uri := "at://did:plc:m/app.molt.appealResolution/r2"
      , outcome := "upheld"
      , createdAt := 50 } }

/-! ## Vote-table invariants -/

/-- Two vote rows collide when they share the business key
(voter, subject). -/
def sameVoteKey (a b : VoteRow) : Prop :=
  a.voter_did = b.voter_did ∧ a.subject = b.subject

instance : DecidableRel sameVoteKey := fun a b => by
  unfold sameVoteKey; infer_instance

/-- At most one vote row per (voter, subject) pair. -/
def PairUnique (votes : List VoteRow) : Prop :=
  votes.Pairwise (fun a b => ¬ sameVoteKey a b)

instance : DecidablePred PairUnique := fun votes => by
  unfold PairUnique; infer_instance

/-- Vote record URIs are pairwise distinct (AT record URIs are unique). -/
def UriUnique (votes : List VoteRow) : Prop :=
  votes.Pairwise (fun a b => a.uri ≠ b.uri)

instance : DecidablePred UriUnique := fun votes => by
  unfold UriUnique; infer_instance

/-- Every stored vote direction is `up` or `down` (the handler validates this
before inserting). -/
def DirectionsValid (votes : List VoteRow) : Prop :=
  ∀ v ∈ votes, v.direction = "up" ∨ v.direction = "down"

instance : DecidablePred DirectionsValid := fun votes => by
  unfold DirectionsValid; infer_instance

/-- The number of stored votes on a subject in a direction. -/
def voteTally (votes : List VoteRow) (subject direction : String) : ℕ :=
  votes.countP (fun v => v.subject == subject && v.direction == direction)

/-- Every post row's counters agree with the stored votes on its URI. -/
def CountsConsistent (db : VoteDb) : Prop :=
  ∀ p ∈ db.posts,
    p.upvote_count = voteTally db.votes p.uri "up" ∧
    p.downvote_count = voteTally db.votes p.uri "down"

instance : DecidablePred CountsConsistent := fun db => by
  unfold CountsConsistent; infer_instance

/-- The full vote-database invariant: per-pair uniqueness, URI uniqueness,
valid directions and counter consistency. -/
def VoteDbInvariant (db : VoteDb) : Prop :=
  PairUnique db.votes ∧ UriUnique db.votes ∧ DirectionsValid db.votes ∧
    CountsConsistent db

instance : DecidablePred VoteDbInvariant := fun db => by
  unfold VoteDbInvariant; infer_instance

/-- A well-formed vote-creation call for the truncated witness statements: a
concrete upvote by one voter. -/
def sampleVote (uri did subject direction : String) : CreateVoteParams :=
  { uri := uri, cid := "cid-" ++ uri, did := did
  , record :=
      { rtype := "app.molt.vote", subject := subject
      , direction := direction, createdAt := 0 } }

/-- A post table with a single post and zeroed counters. -/
def samplePostDb : VoteDb :=
  { votes := []
  , posts := [{ uri := "at://did:plc:p/app.molt.post/1", upvote_count := 0, downvote_count := 0 }] }


/-- A structurally valid self-testimony: the witness testifies about their own
DID. -/
def selfTestimonyParams : CreateTestimonyParams :=
  { uri := "at://did:plc:self/app.molt.testimony/1"
  , cid := "cid-self"
  , did := "did:plc:self"
  , record :=
      { rtype := "app.molt.testimony"
      , subject := "did:plc:self"
      , category := "positive"
      , content := "I am great"
      , context := none
      , evidence := none
      , createdAt := 0 } }

/-- A stored upvote used by the duplicate-vote witness. -/
def dupVoteRow : VoteRow :=
  { uri := "at://did:plc:voter/app.molt.vote/1", cid := "c1"
  , voter_did := "did:plc:voter", subject := "at://did:plc:p/app.molt.post/1"
  , direction := "up", created_at := 0 }

/-- A database already holding `dupVoteRow`, with the post counter in sync. -/
def dupVoteDb : VoteDb :=
  { votes := [dupVoteRow]
  , posts := [{ uri := "at://did:plc:p/app.molt.post/1", upvote_count := 1, downvote_count := 0 }] }

/-- A second vote record by the same voter on the same subject in the same
direction (a semantically identical duplicate with a fresh record URI). -/
def dupVoteParams : CreateVoteParams :=
  { uri := "at://did:plc:voter/app.molt.vote/2", cid := "c2", did := "did:plc:voter"
  , record :=
      { rtype := "app.molt.vote", subject := "at://did:plc:p/app.molt.post/1"
      , direction := "up", createdAt := 5 } }

/-! ## Helper lemmas -/

theorem lastResolvedOutcome_append_singleton (l : List AppealRec) (a : AppealRec) :
    lastResolvedOutcome (l ++ [a]) =
      match a.resolution with
      | some r => some r.outcome
      | none => lastResolvedOutcome l := by
  cases h : a.resolution <;>
    simp [lastResolvedOutcome, List.foldl_append, h]

theorem foldl_stepAppealState_of_unresolved (l : List AppealRec)
    (h : lastResolvedOutcome l = none) (s : String) :
    l.foldl stepAppealState s = s := by
  induction l using List.reverseRecOn generalizing s with
  | nil => rfl
  | append_singleton l a ih =>
    rw [lastResolvedOutcome_append_singleton] at h
    cases hres : a.resolution with
    | some r => rw [hres] at h; exact absurd h (by simp)
    | none =>
      rw [hres] at h
      rw [List.foldl_append, List.foldl_cons, List.foldl_nil]
      rw [show stepAppealState (l.foldl stepAppealState s) a = l.foldl stepAppealState s by
        simp [stepAppealState, hres]]
      exact ih h s

theorem lastResolvedOutcome_mem (l : List AppealRec) (o : String)
    (h : lastResolvedOutcome l = some o) :
    ∃ a ∈ l, ∃ r, a.resolution = some r ∧ r.outcome = o := by
  induction l using List.reverseRecOn with
  | nil => simp [lastResolvedOutcome] at h
  | append_singleton l a ih =>
    rw [lastResolvedOutcome_append_singleton] at h
    cases hres : a.resolution with
    | some r =>
      rw [hres] at h
      exact ⟨a, by simp, r, hres, by simpa using h⟩
    | none =>
      rw [hres] at h
      obtain ⟨b, hb, r, hr, ho⟩ := ih h
      exact ⟨b, by simp [hb], r, hr, ho⟩

theorem foldl_stepAppealState_of_lastResolved (l : List AppealRec) (o : String)
    (ho : o ∈ ["upheld", "overturned", "modified", "remanded"])
    (h : lastResolvedOutcome l = some o) (s : String) :
    l.foldl stepAppealState s = outcomeState o := by
  induction l using List.reverseRecOn generalizing s with
  | nil => simp [lastResolvedOutcome] at h
  | append_singleton l a ih =>
    rw [lastResolvedOutcome_append_singleton] at h
    rw [List.foldl_append, List.foldl_cons, List.foldl_nil]
    cases hres : a.resolution with
    | some r =>
      rw [hres] at h
      have hro : r.outcome = o := by simpa using h
      fin_cases ho <;> simp [stepAppealState, hres, hro, outcomeState]
    | none =>
      rw [hres] at h
      rw [show stepAppealState (l.foldl stepAppealState s) a = l.foldl stepAppealState s by
        simp [stepAppealState, hres]]
      exact ih h s

/-! ## Claim theorems -/

/-- C9: for every testimony list — any categories and any timestamps,
including timestamps later than `now` — both the phi value and the confidence
returned by `calculatePhi` lie in the closed interval [0,1]. -/
theorem phi_confidence_within_unit_interval (now : ℤ) (m : Methodology)
    (ts : List QueryRow) :
    0 ≤ (calculatePhi now ts m).value ∧ (calculatePhi now ts m).value ≤ 1 ∧
    0 ≤ (calculatePhi now ts m).confidence ∧ (calculatePhi now ts m).confidence ≤ 1 := by
  by_cases h : ts = []
  · subst h; simp [calculatePhi]; norm_num
  · simp only [calculatePhi, if_neg h]
    exact ⟨le_max_left _ _, max_le zero_le_one (min_le_left _ _),
      le_max_left _ _, max_le zero_le_one (min_le_left _ _)⟩

/-- C2 (amended): when the testimony query for the subject (in the queried
context) is empty, `getStanding` returns phi value 0.5 and confidence 0 with
an empty testimonies list; the response interface carries no `tier` field at
all, so no tier (`unknown` or otherwise) is reported. -/
theorem getStanding_empty_returns_neutral_phi
    (now : ℤ) (did : String) (context : Option String)
    (ttable : List TestimonyRow) (mtable : List ModActionRow)
    (profiles : List Profile)
    (h : queryTestimonies did context ttable profiles = []) :
    (getStanding now did context ttable mtable profiles).phi.value = 0.5 ∧
    (getStanding now did context ttable mtable profiles).phi.confidence = 0 ∧
    (getStanding now did context ttable mtable profiles).testimonies = [] ∧
    "tier" ∉ GetStandingResponse.fieldNames := by
  refine ⟨?_, ?_, ?_, by decide⟩ <;> simp [getStanding, h, calculatePhi]

/-- Witness for C2 at a concrete empty database. -/
theorem getStanding_empty_returns_neutral_phi_witness :
    (getStanding 0 "did:plc:alice" none [] [] []).phi.value = 0.5 ∧
    (getStanding 0 "did:plc:alice" none [] [] []).phi.confidence = 0 ∧
    (getStanding 0 "did:plc:alice" none [] [] []).testimonies = [] ∧
    "tier" ∉ GetStandingResponse.fieldNames :=
  getStanding_empty_returns_neutral_phi 0 "did:plc:alice" none [] [] [] rfl

/-- C2 counterexample: the claim says the empty-testimony response reports
tier `unknown`, but the `GetStandingResponse` interface has no `tier` field at
all — its fields are exactly did, context, phi, methodology, testimonies,
modActions — so the concrete empty-database response reports no tier (it does
return phi 0.5 and confidence 0 as claimed). -/
theorem getStanding_no_tier_counterexample :
    "tier" ∉ GetStandingResponse.fieldNames ∧
    (getStanding 0 "did:plc:bob" none [] [] []).phi.value = 0.5 ∧
    (getStanding 0 "did:plc:bob" none [] [] []).phi.confidence = 0 := by
  refine ⟨by decide, ?_, ?_⟩ <;>
    simp [getStanding, calculatePhi, queryTestimonies, queryModActions, sortByKeyDesc]

/-- C5: evaluation at the failing input.  Scenario A (one appeal, resolved
`overturned`) makes `getModActionStatus` derive the state string
`"overturned"`, not the `"reversed"` state that the claim (and the
repository's own state-machine documentation, which maps outcome `overturned`
to state `reversed`) requires. -/
theorem modAction_overturned_state_evaluation :
    getModActionStatus [scenarioAAppeal] = "overturned" ∧
    getModActionStatus [scenarioAAppeal] ≠ "reversed" := by
  constructor <;> decide

/-- C6 counterexample: two concurrent appeals; the first-filed appeal's
resolution (`overturned`, created at t=100) is the most recent terminal
resolution, yet the code derives state `"active"` from the later-filed
appeal's earlier (t=50) `upheld` resolution, because the loop takes the last
resolved appeal in iteration order, not the most recent resolution by
creation time. -/
theorem modAction_concurrent_appeals_counterexample :
    specLatestTerminalOutcome [appealFiledFirst, appealFiledSecond] = some "overturned" ∧
    getModActionStatus [appealFiledFirst, appealFiledSecond] = "active" ∧
    ("active" : String) ≠ "overturned" ∧ ("active" : String) ≠ "reversed" := by
  refine ⟨by decide, by decide, by decide, by decide⟩

/-- C6 (amended): for a moderation action with at least one appeal, all of
whose recorded resolution outcomes are known outcomes, the derived state is
determined by the **last resolved appeal in iteration order** (not by
resolution creation time): `appealed` when no appeal is resolved, otherwise
the outcome mapping of that last resolution (`upheld` ↦ `active`,
`overturned` ↦ `overturned`, `modified` ↦ `modified`,
`remanded` ↦ `remanded`). -/
theorem modAction_state_last_resolved_in_order (appeals : List AppealRec)
    (hne : appeals ≠ [])
    (hknown : ∀ r ∈ appeals.filterMap (·.resolution),
      r.outcome ∈ ["upheld", "overturned", "modified", "remanded"]) :
    getModActionStatus appeals =
      (match lastResolvedOutcome appeals with
       | none => "appealed"
       | some o => outcomeState o) := by
  rw [getModActionStatus, if_neg (by simpa using hne)]
  cases hl : lastResolvedOutcome appeals with
  | none => exact foldl_stepAppealState_of_unresolved appeals hl "appealed"
  | some o =>
    obtain ⟨a, ha, r, hres, hro⟩ := lastResolvedOutcome_mem appeals o hl
    have ho : o ∈ ["upheld", "overturned", "modified", "remanded"] := by
      rw [← hro]
      exact hknown r (List.mem_filterMap.mpr ⟨a, ha, hres⟩)
    exact foldl_stepAppealState_of_lastResolved appeals o ho hl "appealed"

/-- Witness for C6 (amended) at the concrete two-appeal input. -/
theorem modAction_state_last_resolved_in_order_witness :
    getModActionStatus [appealFiledFirst, appealFiledSecond] =
      (match lastResolvedOutcome [appealFiledFirst, appealFiledSecond] with
       | none => "appealed"
       | some o => outcomeState o) :=
  modAction_state_last_resolved_in_order [appealFiledFirst, appealFiledSecond]
    (by decide) (by decide)

/-- C7: the confidence returned by `calculatePhi` equals
`clamp(1 - 0.9^count, 0, 1)` for every testimony count; hence it is
non-decreasing in the count (for any recency distributions), it is 0 for zero
testimonies, and the clamp expression tends to 1 as the count grows without
bound. -/
theorem confidence_clamp_monotone_limit :
    (∀ (now : ℤ) (m : Methodology) (ts : List QueryRow),
      (calculatePhi now ts m).confidence = max 0 (min 1 (1 - (0.9 : ℝ) ^ ts.length)))
    ∧ (∀ (now now' : ℤ) (m m' : Methodology) (ts ts' : List QueryRow),
        ts.length ≤ ts'.length →
        (calculatePhi now ts m).confidence ≤ (calculatePhi now' ts' m').confidence)
    ∧ (∀ (now : ℤ) (m : Methodology), (calculatePhi now [] m).confidence = 0)
    ∧ Filter.Tendsto (fun n : ℕ => max 0 (min 1 (1 - (0.9 : ℝ) ^ n)))
        Filter.atTop (nhds 1) := by
  have key : ∀ (now : ℤ) (m : Methodology) (ts : List QueryRow),
      (calculatePhi now ts m).confidence = max 0 (min 1 (1 - (0.9 : ℝ) ^ ts.length)) := by
    intro now m ts
    by_cases h : ts = []
    · subst h; simp [calculatePhi]
    · simp [calculatePhi, h]
  have clampid : ∀ n : ℕ, max 0 (min 1 (1 - (0.9 : ℝ) ^ n)) = 1 - (0.9 : ℝ) ^ n := by
    intro n
    have h1 : (0.9 : ℝ) ^ n ≤ 1 := pow_le_one₀ (by norm_num) (by norm_num)
    have h2 : (0 : ℝ) < (0.9 : ℝ) ^ n := pow_pos (by norm_num) n
    rw [min_eq_right (by linarith), max_eq_right (by linarith)]
  refine ⟨key, ?_, ?_, ?_⟩
  · intro now now' m m' ts ts' hlen
    rw [key, key]
    have hp : (0.9 : ℝ) ^ ts'.length ≤ (0.9 : ℝ) ^ ts.length :=
      pow_le_pow_of_le_one (by norm_num) (by norm_num) hlen
    exact max_le_max le_rfl (min_le_min le_rfl (by linarith))
  · intro now m; simp [calculatePhi]
  · refine Filter.Tendsto.congr (fun n => (clampid n).symm) ?_
    have h0 : Filter.Tendsto (fun n : ℕ => (0.9 : ℝ) ^ n) Filter.atTop (nhds 0) :=
      tendsto_pow_atTop_nhds_zero_of_lt_one (by norm_num) (by norm_num)
    simpa using Filter.Tendsto.const_sub (1 : ℝ) h0

/-- Witness for the monotonicity conjunct of C7 at concrete lists of lengths
1 and 2. -/
theorem confidence_clamp_monotone_limit_witness :
    (calculatePhi 0 [sampleQueryRow] METHODOLOGY_V1).confidence ≤
      (calculatePhi 0 [sampleQueryRow, sampleQueryRow] METHODOLOGY_V1).confidence :=
  confidence_clamp_monotone_limit.2.1 0 0 METHODOLOGY_V1 METHODOLOGY_V1
    [sampleQueryRow] [sampleQueryRow, sampleQueryRow] (by simp)

/-- C1: Scenario B — at any evaluation time `now`, three testimonies (two
positive aged 5 days, one negative aged 40 days) under the default methodology
(30-day half-life) give phi
`((2*0.5^(5/30) - 0.5^(40/30)) / (2*0.5^(5/30) + 0.5^(40/30)) + 1) / 2`
(≈ 0.818) and confidence `1 - 0.9^3` (≈ 0.271). -/
theorem standing_scenarioB_phi_confidence (now : ℤ) :
    (calculatePhi now (scenarioBRows now) METHODOLOGY_V1).value =
      ((2 * (0.5 : ℝ) ^ ((5 : ℝ) / 30) - (0.5 : ℝ) ^ ((40 : ℝ) / 30)) /
          (2 * (0.5 : ℝ) ^ ((5 : ℝ) / 30) + (0.5 : ℝ) ^ ((40 : ℝ) / 30)) + 1) / 2 ∧
    (calculatePhi now (scenarioBRows now) METHODOLOGY_V1).confidence = 1 - (0.9 : ℝ) ^ 3 := by
  have hw : METHODOLOGY_V1.weight "recencyHalfLifeDays" = some 30 := rfl
  have hr1 : recencyWeight now (((METHODOLOGY_V1.weight "recencyHalfLifeDays").getD 30) * 24 * 60 * 60 * 1000)
      (now - 432000000) = (0.5 : ℝ) ^ ((5 : ℝ) / 30) := by
    rw [recencyWeight, hw]
    congr 1
    push_cast
    ring_nf
    norm_num
  have hr2 : recencyWeight now (((METHODOLOGY_V1.weight "recencyHalfLifeDays").getD 30) * 24 * 60 * 60 * 1000)
      (now - 3456000000) = (0.5 : ℝ) ^ ((40 : ℝ) / 30) := by
    rw [recencyWeight, hw]
    congr 1
    push_cast
    ring_nf
    norm_num
  have ha : (0 : ℝ) < (0.5 : ℝ) ^ ((5 : ℝ) / 30) := Real.rpow_pos_of_pos (by norm_num) _
  have hb : (0 : ℝ) < (0.5 : ℝ) ^ ((40 : ℝ) / 30) := Real.rpow_pos_of_pos (by norm_num) _
  simp only [calculatePhi, scenarioBRows, List.map_cons, List.map_nil, List.sum_cons,
    List.sum_nil, List.length_cons, List.length_nil, hr1, hr2]
  rw [if_neg (List.cons_ne_nil _ _)]
  set a : ℝ := (0.5 : ℝ) ^ ((5 : ℝ) / 30) with ha_def
  set b : ℝ := (0.5 : ℝ) ^ ((40 : ℝ) / 30) with hb_def
  have hcp : categoryValue "positive" = 1 := rfl
  have hcn : categoryValue "negative" = -1 := rfl
  rw [hcp, hcn]
  have hnum : 1 * a + (1 * a + (-1 * b + 0)) = 2 * a - b := by ring
  have hden : a + (a + (b + 0)) = 2 * a + b := by ring
  rw [hnum, hden]
  rw [if_pos (by linarith : (0 : ℝ) < 2 * a + b)]
  constructor
  · show (0 : ℝ) ⊔ 1 ⊓ (((2 * a - b) / (2 * a + b) + 1) / 2) = ((2 * a - b) / (2 * a + b) + 1) / 2
    have hX1 : (2 * a - b) / (2 * a + b) ≤ 1 := by
      rw [div_le_one (by linarith)]; linarith
    have hX2 : (-1 : ℝ) ≤ (2 * a - b) / (2 * a + b) := by
      rw [le_div_iff₀ (by linarith)]; linarith
    rw [min_eq_right (by linarith), max_eq_right (by linarith)]
  · show (0 : ℝ) ⊔ 1 ⊓ (1 - (0.9 : ℝ) ^ (0 + 1 + 1 + 1)) = 1 - (0.9 : ℝ) ^ 3
    norm_num

/-- C3: a structurally valid testimony whose subject equals the witness's own
DID is rejected at ingestion with the self-testimony error, and no row is
inserted into the testimonies store (so no standing computation can ever see
it). -/
theorem createTestimony_rejects_self_testimony
    (params : CreateTestimonyParams) (table : List TestimonyRow)
    (htype : params.record.rtype = "app.molt.testimony")
    (hcat : params.record.category ∈ ["positive", "negative", "neutral"])
    (hcontent : params.record.content ≠ "")
    (hself : params.record.subject = params.did)
    (hdid : params.did ≠ "") :
    (handleCreateTestimony params table).1.success = false ∧
    (handleCreateTestimony params table).1.error = some "Cannot testify about yourself" ∧
    (handleCreateTestimony params table).2 = table := by
  have hsub : params.record.subject ≠ "" := by rw [hself]; exact hdid
  have hcatne : params.record.category ≠ "" := by
    intro h
    rw [h] at hcat
    simp at hcat
  simp [handleCreateTestimony, htype, hsub, hcatne, hcontent, hcat, hself, hdid]

/-- Witness for C3 at a concrete self-testimony. -/
theorem createTestimony_rejects_self_testimony_witness :
    (handleCreateTestimony selfTestimonyParams []).1.success = false ∧
    (handleCreateTestimony selfTestimonyParams []).1.error = some "Cannot testify about yourself" ∧
    (handleCreateTestimony selfTestimonyParams []).2 = [] :=
  createTestimony_rejects_self_testimony selfTestimonyParams []
    rfl (by decide) (by decide) rfl (by decide)

/-- C4 (amended): every getStanding response carries the methodology
identifier with its full weighting parameters (always `METHODOLOGY_V1`) and
the testimonies list (the query result, capped at 50 rows); but the cap is
silent — the response interface has no `moreAvailable` and no `cursor`
field. -/
theorem getStanding_methodology_and_testimonies_always_included
    (now : ℤ) (did : String) (context : Option String) (ttable : List TestimonyRow)
    (mtable : List ModActionRow) (profiles : List Profile) :
    (getStanding now did context ttable mtable profiles).methodology = METHODOLOGY_V1 ∧
    (getStanding now did context ttable mtable profiles).testimonies =
      (queryTestimonies did context ttable profiles).map (fun t =>
        { uri := t.uri, witness := t.witness_did, witnessHandle := t.witness_handle
        , category := t.category, content := t.content
        , evidence := if t.evidence.length > 0 then some t.evidence else none
        , createdAt := t.created_at }) ∧
    (getStanding now did context ttable mtable profiles).testimonies.length ≤ 50 ∧
    "moreAvailable" ∉ GetStandingResponse.fieldNames ∧
    "cursor" ∉ GetStandingResponse.fieldNames := by
  refine ⟨rfl, rfl, ?_, by decide, by decide⟩
  simp only [getStanding, queryTestimonies, List.length_map, List.length_take]
  exact min_le_left _ _

/-- C4 counterexample: with 51 stored testimonies about one subject the
response keeps only 50 and is *identical* to the response computed from a
table that only ever held those 50 rows — nothing in the response (which has
no `moreAvailable` field) signals the truncation. -/
theorem getStanding_silent_truncation_counterexample :
    truncTable51.length = 51 ∧
    (getStanding 2000 "did:plc:subject" none truncTable51 [] []).testimonies.length = 50 ∧
    getStanding 2000 "did:plc:subject" none truncTable51 [] [] =
      getStanding 2000 "did:plc:subject" none truncTable50 [] [] ∧
    "moreAvailable" ∉ GetStandingResponse.fieldNames := by
  have hq : queryTestimonies "did:plc:subject" none truncTable51 [] =
      queryTestimonies "did:plc:subject" none truncTable50 [] := by rfl
  refine ⟨by decide, ?_, ?_, by decide⟩
  · simp only [getStanding, List.length_map]
    rw [hq]
    decide
  · simp only [getStanding]
    rw [hq]

/-- C8: when a vote by the same voter on the same subject with the same
direction already exists, `handleCreateVote` returns success and leaves both
the votes table and every post counter unchanged (idempotent by business
key). -/
theorem createVote_idempotent_same_direction
    (params : CreateVoteParams) (db : VoteDb) (existing : VoteRow)
    (htype : params.record.rtype = "app.molt.vote")
    (hsub : params.record.subject ≠ "")
    (hdir : params.record.direction ∈ ["up", "down"])
    (hfind : db.votes.find? (fun v =>
        v.voter_did == params.did && v.subject == params.record.subject) = some existing)
    (hsame : existing.direction = params.record.direction) :
    (handleCreateVote params db).1.success = true ∧
    (handleCreateVote params db).2 = db := by
  have hdirne : params.record.direction ≠ "" := by
    intro h
    rw [h] at hdir
    simp at hdir
  simp [handleCreateVote, htype, hsub, hdirne, hdir, hfind, hsame]

/-- Witness for C8 at a concrete duplicate upvote. -/
theorem createVote_idempotent_same_direction_witness :
    (handleCreateVote dupVoteParams dupVoteDb).1.success = true ∧
    (handleCreateVote dupVoteParams dupVoteDb).2 = dupVoteDb :=
  createVote_idempotent_same_direction dupVoteParams dupVoteDb dupVoteRow
    rfl (by decide) (by decide) (by decide) rfl

theorem find?_voteKey_mem_eq (votes : List VoteRow) (did subject : String) (ex : VoteRow)
    (hpu : PairUnique votes)
    (hfind : votes.find? (fun v => v.voter_did == did && v.subject == subject) = some ex) :
    ∀ v ∈ votes, v.voter_did = did → v.subject = subject → v = ex := by
  intro v hv hvd hvs
  have hexm : ex ∈ votes := List.mem_of_find?_eq_some hfind
  have hexp := List.find?_some hfind
  rw [Bool.and_eq_true, beq_iff_eq, beq_iff_eq] at hexp
  by_contra hne
  have hpu' : votes.Pairwise (fun a b => ¬ sameVoteKey a b) := hpu
  have hsymm : Symmetric (fun a b : VoteRow => ¬ sameVoteKey a b) := by
    intro a b h hk
    exact h ⟨hk.1.symm, hk.2.symm⟩
  exact hpu'.forall hsymm hv hexm hne ⟨hvd.trans hexp.1.symm, hvs.trans hexp.2.symm⟩

theorem countP_votes_erase_add (votes : List VoteRow) (ex : VoteRow) (q : VoteRow → Bool)
    (huu : UriUnique votes) (hexm : ex ∈ votes) :
    votes.countP q = (votes.filter (fun v => v.uri ≠ ex.uri)).countP q +
      (if q ex then 1 else 0) := by
  induction votes with
  | nil => cases hexm
  | cons a t ih =>
    have huu' : (a :: t).Pairwise (fun x y : VoteRow => x.uri ≠ y.uri) := huu
    rw [List.pairwise_cons] at huu'
    obtain ⟨hhead, htail⟩ := huu'
    rcases List.mem_cons.mp hexm with rfl | hext
    · have hfa : t.filter (fun v : VoteRow => !decide (v.uri = ex.uri)) = t := by
        apply List.filter_eq_self.mpr
        intro b hb
        simpa using (hhead b hb).symm
      simp [List.countP_cons, List.filter_cons, hfa]
    · have hne : a.uri ≠ ex.uri := hhead ex hext
      have hrec := ih htail hext
      have hcond : (decide (a.uri = ex.uri)) = false := by simpa using hne
      simp only [ne_eq, decide_not] at hrec ⊢
      simp [List.countP_cons, List.filter_cons, hcond, hrec]
      omega

theorem handleCreateVote_preserves_pairUnique (p : CreateVoteParams) (db : VoteDb)
    (hpu : PairUnique db.votes) : PairUnique (handleCreateVote p db).2.votes := by
  simp only [handleCreateVote]
  by_cases h1 : p.record.rtype ≠ "app.molt.vote"
  · rw [if_pos h1]; exact hpu
  rw [if_neg h1]
  by_cases h2 : p.record.subject = "" ∨ p.record.direction = ""
  · rw [if_pos h2]; exact hpu
  rw [if_neg h2]
  by_cases h3 : p.record.direction ∉ ["up", "down"]
  · rw [if_pos h3]; exact hpu
  rw [if_neg h3]
  cases hfind : db.votes.find? (fun v =>
      v.voter_did == p.did && v.subject == p.record.subject) with
  | none =>
    simp only [hfind]
    apply List.pairwise_append.mpr
    refine ⟨hpu, by simp, ?_⟩
    intro a ha b hb
    simp only [List.mem_singleton] at hb
    subst hb
    intro hk
    have hnk := List.find?_eq_none.mp hfind a ha
    apply hnk
    rw [Bool.and_eq_true, beq_iff_eq, beq_iff_eq]
    exact ⟨hk.1, hk.2⟩
  | some ex =>
    simp only [hfind]
    by_cases hsame : ex.direction = p.record.direction
    · rw [if_pos hsame]; exact hpu
    rw [if_neg hsame]
    apply List.pairwise_append.mpr
    refine ⟨hpu.sublist (List.filter_sublist _), by simp, ?_⟩
    intro a ha b hb
    simp only [List.mem_singleton] at hb
    subst hb
    intro hk
    rw [List.mem_filter] at ha
    obtain ⟨ham, hauri⟩ := ha
    have heq := find?_voteKey_mem_eq db.votes p.did p.record.subject ex hpu hfind
      a ham hk.1 hk.2
    rw [heq] at hauri
    simp at hauri

theorem applyVotes_preserves_pairUnique (ps : List CreateVoteParams) (db : VoteDb)
    (h : PairUnique db.votes) : PairUnique (applyVotes ps db).votes := by
  induction ps generalizing db with
  | nil => exact h
  | cons q t ih =>
    simp only [applyVotes, List.foldl_cons]
    exact ih (handleCreateVote q db).2 (handleCreateVote_preserves_pairUnique q db h)

theorem handleCreateVote_preserves_uriUnique (p : CreateVoteParams) (db : VoteDb)
    (huu : UriUnique db.votes) (hfresh : ∀ v ∈ db.votes, v.uri ≠ p.uri) :
    UriUnique (handleCreateVote p db).2.votes := by
  simp only [handleCreateVote]
  by_cases h1 : p.record.rtype ≠ "app.molt.vote"
  · rw [if_pos h1]; exact huu
  rw [if_neg h1]
  by_cases h2 : p.record.subject = "" ∨ p.record.direction = ""
  · rw [if_pos h2]; exact huu
  rw [if_neg h2]
  by_cases h3 : p.record.direction ∉ ["up", "down"]
  · rw [if_pos h3]; exact huu
  rw [if_neg h3]
  cases hfind : db.votes.find? (fun v =>
      v.voter_did == p.did && v.subject == p.record.subject) with
  | none =>
    simp only [hfind]
    apply List.pairwise_append.mpr
    refine ⟨huu, by simp, ?_⟩
    intro a ha b hb
    simp only [List.mem_singleton] at hb
    subst hb
    exact hfresh a ha
  | some ex =>
    simp only [hfind]
    by_cases hsame : ex.direction = p.record.direction
    · rw [if_pos hsame]; exact huu
    rw [if_neg hsame]
    apply List.pairwise_append.mpr
    refine ⟨huu.sublist (List.filter_sublist _), by simp, ?_⟩
    intro a ha b hb
    simp only [List.mem_singleton] at hb
    subst hb
    rw [List.mem_filter] at ha
    exact hfresh a ha.1

theorem handleCreateVote_preserves_directionsValid (p : CreateVoteParams) (db : VoteDb)
    (hdv : DirectionsValid db.votes) : DirectionsValid (handleCreateVote p db).2.votes := by
  simp only [handleCreateVote]
  by_cases h1 : p.record.rtype ≠ "app.molt.vote"
  · rw [if_pos h1]; exact hdv
  rw [if_neg h1]
  by_cases h2 : p.record.subject = "" ∨ p.record.direction = ""
  · rw [if_pos h2]; exact hdv
  rw [if_neg h2]
  by_cases h3 : p.record.direction ∉ ["up", "down"]
  · rw [if_pos h3]; exact hdv
  rw [if_neg h3]
  have hdirmem : p.record.direction = "up" ∨ p.record.direction = "down" := by
    rw [not_not] at h3
    simpa using h3
  cases hfind : db.votes.find? (fun v =>
      v.voter_did == p.did && v.subject == p.record.subject) with
  | none =>
    simp only [hfind]
    intro v hv
    rcases List.mem_append.mp hv with hvm | hvm
    · exact hdv v hvm
    · simp only [List.mem_singleton] at hvm
      subst hvm
      exact hdirmem
  | some ex =>
    simp only [hfind]
    by_cases hsame : ex.direction = p.record.direction
    · rw [if_pos hsame]; exact hdv
    rw [if_neg hsame]
    intro v hv
    rcases List.mem_append.mp hv with hvm | hvm
    · rw [List.mem_filter] at hvm
      exact hdv v hvm.1
    · simp only [List.mem_singleton] at hvm
      subst hvm
      exact hdirmem

theorem handleCreateVote_preserves_counts (p : CreateVoteParams) (db : VoteDb)
    (huu : UriUnique db.votes)
    (hdv : DirectionsValid db.votes) (hcc : CountsConsistent db) :
    CountsConsistent (handleCreateVote p db).2 := by
  simp only [handleCreateVote]
  by_cases h1 : p.record.rtype ≠ "app.molt.vote"
  · rw [if_pos h1]; exact hcc
  rw [if_neg h1]
  by_cases h2 : p.record.subject = "" ∨ p.record.direction = ""
  · rw [if_pos h2]; exact hcc
  rw [if_neg h2]
  by_cases h3 : p.record.direction ∉ ["up", "down"]
  · rw [if_pos h3]; exact hcc
  rw [if_neg h3]
  have hdirmem : p.record.direction = "up" ∨ p.record.direction = "down" := by
    rw [not_not] at h3
    simpa using h3
  cases hfind : db.votes.find? (fun v =>
      v.voter_did == p.did && v.subject == p.record.subject) with
  | none =>
    simp only [hfind]
    intro r hr
    simp only [incrementCount] at hr
    obtain ⟨p0, hp0, rfl⟩ := List.mem_map.mp hr
    obtain ⟨hup0, hdn0⟩ := hcc p0 hp0
    simp only [voteTally] at hup0 hdn0 ⊢
    by_cases hpe : p0.uri = p.record.subject
    · rw [if_pos hpe]
      rcases hdirmem with hd | hd
      · rw [if_pos hd]
        constructor
        · show p0.upvote_count + 1 = List.countP
            (fun v => v.subject == p0.uri && v.direction == "up") (db.votes ++ [_])
          rw [List.countP_append]
          simp only [List.countP_cons, List.countP_nil]
          have hqnew : ((p.record.subject == p0.uri && p.record.direction == "up") : Bool)
              = true := by simp [hpe.symm, hd]
          simp [hqnew]
          omega
        · show p0.downvote_count = List.countP
            (fun v => v.subject == p0.uri && v.direction == "down") (db.votes ++ [_])
          rw [List.countP_append]
          simp only [List.countP_cons, List.countP_nil]
          have hqnew : ((p.record.subject == p0.uri && p.record.direction == "down") : Bool)
              = false := by simp [hd]
          simp [hqnew]
          omega
      · rw [if_neg (by simp [hd])]
        constructor
        · show p0.upvote_count = List.countP
            (fun v => v.subject == p0.uri && v.direction == "up") (db.votes ++ [_])
          rw [List.countP_append]
          simp only [List.countP_cons, List.countP_nil]
          have hqnew : ((p.record.subject == p0.uri && p.record.direction == "up") : Bool)
              = false := by simp [hd]
          simp [hqnew]
          omega
        · show p0.downvote_count + 1 = List.countP
            (fun v => v.subject == p0.uri && v.direction == "down") (db.votes ++ [_])
          rw [List.countP_append]
          simp only [List.countP_cons, List.countP_nil]
          have hqnew : ((p.record.subject == p0.uri && p.record.direction == "down") : Bool)
              = true := by simp [hpe.symm, hd]
          simp [hqnew]
          omega
    · rw [if_neg hpe]
      have hsub : ((p.record.subject == p0.uri) : Bool) = false := by
        simp
        exact fun h => hpe h.symm
      constructor
      · show p0.upvote_count = List.countP
          (fun v => v.subject == p0.uri && v.direction == "up") (db.votes ++ [_])
        rw [List.countP_append]
        simp [hsub]
        omega
      · show p0.downvote_count = List.countP
          (fun v => v.subject == p0.uri && v.direction == "down") (db.votes ++ [_])
        rw [List.countP_append]
        simp [hsub]
        omega
  | some ex =>
    simp only [hfind]
    by_cases hsame : ex.direction = p.record.direction
    · rw [if_pos hsame]; exact hcc
    rw [if_neg hsame]
    have hexm : ex ∈ db.votes := List.mem_of_find?_eq_some hfind
    have hexp := List.find?_some hfind
    rw [Bool.and_eq_true, beq_iff_eq, beq_iff_eq] at hexp
    have herase : ∀ q : VoteRow → Bool, db.votes.countP q =
        (db.votes.filter (fun v => v.uri ≠ ex.uri)).countP q + (if q ex then 1 else 0) :=
      fun q => countP_votes_erase_add db.votes ex q huu hexm
    intro r hr
    simp only [incrementCount] at hr
    obtain ⟨r1, hr1, rfl⟩ := List.mem_map.mp hr
    simp only [decrementCount] at hr1
    obtain ⟨p0, hp0, rfl⟩ := List.mem_map.mp hr1
    obtain ⟨hup0, hdn0⟩ := hcc p0 hp0
    simp only [voteTally] at hup0 hdn0 ⊢
    by_cases hpe : p0.uri = p.record.subject
    · rcases hdirmem with hd | hd
      · have hexd : ex.direction = "down" := by
          rcases hdv ex hexm with h | h
          · exact absurd (h.trans hd.symm) hsame
          · exact h
        have hqd_ex : ((ex.subject == p0.uri && ex.direction == "down") : Bool) = true := by
          simp [hexp.2, hpe, hexd]
        have hdpos : 0 < p0.downvote_count := by
          rw [hdn0]
          exact List.countP_pos_iff.mpr ⟨ex, hexm, hqd_ex⟩
        rw [if_pos hpe, if_neg (show ¬(ex.direction = "up") from by simp [hexd]),
          if_pos hdpos]
        dsimp only
        rw [if_pos hpe, if_pos hd]
        dsimp only
        have e_up := herase (fun v => v.subject == p0.uri && v.direction == "up")
        have e_dn := herase (fun v => v.subject == p0.uri && v.direction == "down")
        simp [show ((ex.subject == p0.uri && ex.direction == "up") : Bool) = false from
          by simp [hexd]] at e_up
        simp [hqd_ex] at e_dn
        have hnew_up : ((p.record.subject == p0.uri && p.record.direction == "up") : Bool)
            = true := by simp [hpe, hd]
        have hnew_dn : ((p.record.subject == p0.uri && p.record.direction == "down") : Bool)
            = false := by simp [hd]
        simp only [ne_eq, decide_not]
        constructor
        · rw [List.countP_append]
          simp [hnew_up]
          omega
        · rw [List.countP_append]
          simp [hnew_dn]
          omega
      · have hexd : ex.direction = "up" := by
          rcases hdv ex hexm with h | h
          · exact h
          · exact absurd (h.trans hd.symm) hsame
        have hqu_ex : ((ex.subject == p0.uri && ex.direction == "up") : Bool) = true := by
          simp [hexp.2, hpe, hexd]
        have hupos : 0 < p0.upvote_count := by
          rw [hup0]
          exact List.countP_pos_iff.mpr ⟨ex, hexm, hqu_ex⟩
        rw [if_pos hpe, if_pos (show ex.direction = "up" from hexd), if_pos hupos]
        dsimp only
        rw [if_pos hpe, if_neg (show ¬(p.record.direction = "up") from by simp [hd])]
        dsimp only
        have e_up := herase (fun v => v.subject == p0.uri && v.direction == "up")
        have e_dn := herase (fun v => v.subject == p0.uri && v.direction == "down")
        simp [hqu_ex] at e_up
        simp [show ((ex.subject == p0.uri && ex.direction == "down") : Bool) = false from
          by simp [hexd]] at e_dn
        have hnew_up : ((p.record.subject == p0.uri && p.record.direction == "up") : Bool)
            = false := by simp [hd]
        have hnew_dn : ((p.record.subject == p0.uri && p.record.direction == "down") : Bool)
            = true := by simp [hpe, hd]
        simp only [ne_eq, decide_not]
        constructor
        · rw [List.countP_append]
          simp [hnew_up]
          omega
        · rw [List.countP_append]
          simp [hnew_dn]
          omega
    · have hsubf : ((p.record.subject == p0.uri) : Bool) = false := by
        simp
        exact fun h => hpe h.symm
      have hexf : ((ex.subject == p0.uri) : Bool) = false := by
        rw [hexp.2]
        exact hsubf
      rw [if_neg hpe]
      rw [if_neg hpe]
      have e_up := herase (fun v => v.subject == p0.uri && v.direction == "up")
      have e_dn := herase (fun v => v.subject == p0.uri && v.direction == "down")
      simp [show ((ex.subject == p0.uri && ex.direction == "up") : Bool) = false from
        by simp [hexf]] at e_up
      simp [show ((ex.subject == p0.uri && ex.direction == "down") : Bool) = false from
        by simp [hexf]] at e_dn
      simp only [ne_eq, decide_not]
      constructor
      · rw [List.countP_append]
        simp [hsubf]
        omega
      · rw [List.countP_append]
        simp [hsubf]
        omega

/-- C10: after any sequence of vote-creation calls, at most one vote row
exists per (voter, subject) pair; moreover a single call on a database
satisfying the full invariant (pair uniqueness, record-URI uniqueness, valid
directions, counters in sync with the stored votes), with a fresh record URI,
preserves that full invariant — in the re-vote path the handler decrements
the old direction, deletes the old row, inserts the new vote and increments
the new direction, keeping both uniqueness and count consistency. -/
theorem createVote_pair_uniqueness_and_count_consistency :
    (∀ (ps : List CreateVoteParams) (db : VoteDb),
      PairUnique db.votes → PairUnique (applyVotes ps db).votes)
    ∧ (∀ (p : CreateVoteParams) (db : VoteDb),
      VoteDbInvariant db → (∀ v ∈ db.votes, v.uri ≠ p.uri) →
      VoteDbInvariant (handleCreateVote p db).2) :=
  ⟨applyVotes_preserves_pairUnique,
   fun p db hinv hfresh =>
     ⟨handleCreateVote_preserves_pairUnique p db hinv.1,
      handleCreateVote_preserves_uriUnique p db hinv.2.1 hfresh,
      handleCreateVote_preserves_directionsValid p db hinv.2.2.1,
      handleCreateVote_preserves_counts p db hinv.2.1 hinv.2.2.1 hinv.2.2.2⟩⟩

/-- Witness for C10: an upvote followed by a re-vote in the opposite direction
by the same voter, starting from a database holding one post with zeroed
counters. -/
theorem createVote_pair_uniqueness_and_count_consistency_witness :
    PairUnique (applyVotes
      [ sampleVote "at://did:plc:a/app.molt.vote/1" "did:plc:a"
          "at://did:plc:p/app.molt.post/1" "up"
      , sampleVote "at://did:plc:a/app.molt.vote/2" "did:plc:a"
          "at://did:plc:p/app.molt.post/1" "down" ]
      samplePostDb).votes ∧
    VoteDbInvariant (handleCreateVote
      (sampleVote "at://did:plc:a/app.molt.vote/1" "did:plc:a"
        "at://did:plc:p/app.molt.post/1" "up")
      samplePostDb).2 :=
  ⟨createVote_pair_uniqueness_and_count_consistency.1 _ samplePostDb (by decide),
   createVote_pair_uniqueness_and_count_consistency.2 _ samplePostDb (by decide) (by decide)⟩
